import Mathlib

/-!
# dbview `install` command (cmd/install.go)

A shallow embedding of the `install` sub-command of dbview.  The command is a
straight-line sequence of calls into the `setup` package (the database
collaborator); every call is followed by `abort`, which panics on a non-nil
error.  The collaborator is external, so it is modelled as an arbitrary
function from the history of the calls made so far and the current call to a
reply; the run records every call together with the reply it received.
-/

namespace Dbview

/-! ## Data model -/

/-- The value of type `setup.ConnectionDetails` built by the command: the four
fields that `Run` sets. -/
structure ConnectionDetails where
  Username : String
  Host : String
  Database : String
  SslMode : String
deriving DecidableEq, Repr

/-- The value of type `setup.RestoreOptions` built by the command. -/
structure RestoreOptions where
  CustomArgs : List String
deriving DecidableEq, Repr

/-- A Go `error` value that is not nil; `Option GoError` is a Go `error`. -/
abbrev GoError := String

/-- One call into the `setup` package, with the arguments it is given.  The
connection is passed by value, so a call sees the fields as they are at the
time of the call and cannot change them for the caller. -/
inductive Call where
  | DropDatabase (conn : ConnectionDetails) (dbName : String)
  | DropUser (conn : ConnectionDetails) (user : String)
  | CreateUser (conn : ConnectionDetails) (user : String) (options : List String)
  | GrantRolesToUser (conn : ConnectionDetails) (user : String) (roles : List String)
  | SetSearchPathForUser (conn : ConnectionDetails) (user : String) (path : List String)
  | CreateNewDatabase (conn : ConnectionDetails) (dbName : String) (options : List String)
  | CreateExtensionsInDatabase (conn : ConnectionDetails) (extensions : List String)
  | CheckIfSchemaExists (conn : ConnectionDetails) (schema : String)
  | CreateSchema (conn : ConnectionDetails) (schema : String)
  | RestoreDumpFile (conn : ConnectionDetails) (dumpFile : String) (options : RestoreOptions)
deriving DecidableEq, Repr

/-- What a call into `setup` returns: the error, and for `CheckIfSchemaExists`
the boolean (the field is ignored for the other calls). -/
structure Reply where
  found : Bool
  err : Option GoError
deriving DecidableEq, Repr

/-- A call together with the reply it received. -/
structure Event where
  call : Call
  reply : Reply
deriving DecidableEq, Repr

/-- The collaborator: its reply to a call may depend on everything that
happened before in the run. -/
abbrev Setup := List Event → Call → Reply

/-- The package-level variables that the flags of `init` fill in.  A Go `int`
is a 64-bit integer; the customer identifier and the port range over all of
`Int` here, which includes every value the flags can hold. -/
structure Params where
  pCustomerID : Int
  pDBPort : Int
  pDBUserName : String
  pDBHost : String
  pDBName : String
  pDBSslMode : String
  pDumpFile : String
  pDBPassword : String
  pTargetDatabase : String
  pTargetUserName : String
  pCleanInstall : Bool
deriving DecidableEq, Repr

/-- The flag defaults registered in `init`. -/
def defaultParams : Params where
  pCustomerID := 0
  pDBPort := 5432
  pDBUserName := "postgres"
  pDBHost := "127.0.0.1"
  pDBName := "postgres"
  pDBSslMode := "disable"
  pDumpFile := ""
  pDBPassword := ""
  pTargetDatabase := "umovme_dbview_db"
  pTargetUserName := "dbview"
  pCleanInstall := false

/-! ## The effects of a run -/

/-- What a run has done so far: the calls into `setup` in order, each with its
reply, and the lines printed to standard output in order. -/
structure World where
  calls : List Event
  out : List String
deriving DecidableEq, Repr

/-- The state before the command runs. -/
def World.init : World := ⟨[], []⟩

/-- A computation either returns normally or panics with an error. -/
inductive Res (α : Type) where
  | ok (a : α) (s : World)
  | panic (e : GoError) (s : World)
deriving DecidableEq, Repr

/-- The state a computation ended in. -/
def Res.world {α : Type} : Res α → World
  | .ok _ s => s
  | .panic _ s => s

/-- The calls made, without the replies. -/
def Res.trace {α : Type} (r : Res α) : List Call := r.world.calls.map Event.call

/-- Whether the computation returned normally. -/
def Res.returned {α : Type} : Res α → Bool
  | .ok _ _ => true
  | .panic _ _ => false

/-- The value the computation panicked with, if it did. -/
def Res.panicked {α : Type} : Res α → Option GoError
  | .ok _ _ => none
  | .panic e _ => some e

/-- Computations of the command. -/
def M (α : Type) : Type := World → Res α

/-- Sequencing: a panic skips everything after it. -/
def M.bind {α β : Type} (m : M α) (f : α → M β) : M β := fun s =>
  match m s with
  | .ok a s1 => f a s1
  | .panic e s1 => .panic e s1

instance : Monad M where
  pure a := fun s => .ok a s
  bind := M.bind

/-- Go's `fmt.Println`. -/
def println (line : String) : M Unit := fun s => .ok () ⟨s.calls, s.out ++ [line]⟩

/-- Go's built-in `panic`. -/
def goPanic {α : Type} (e : GoError) : M α := fun s => .panic e s

/-- A call into the `setup` package. -/
def invoke (w : Setup) (c : Call) : M Reply := fun s =>
  let r := w s.calls c
  .ok r ⟨s.calls ++ [⟨c, r⟩], s.out⟩

/-- The rendering of an integer by the verb `%d`. -/
def fmtD (i : Int) : String :=
  if i < 0 then "-" ++ Nat.repr i.natAbs else Nat.repr i.natAbs

/-! ## The functions of cmd/install.go -/

/-- The function `log`, for a message without verbs. -/
def log (message : String) : M Unit := println message

/-- The function `log`, for the one-verb messages `before%safter`. -/
def log1 (before arg after : String) : M Unit := println (before ++ arg ++ after)

/-- The function `abort`: aborts this program on any error. -/
def abort (err : Option GoError) : M Unit :=
  match err with
  | some e => goPanic e
  | none => pure ()

/-- The function `checkInputParameters`: false, after a printed reason, when
the customer identifier is zero or the dump file path is empty. -/
def checkInputParameters (p : Params) : M Bool := do
  if p.pCustomerID = 0 then
    println "Missing the customer id!"
    return false
  if p.pDumpFile = "" then
    println "Missing the dump file!"
    return false
  return true

/-- The function `cleanup`: with the force-cleanup flag, drop the target
database, then the target role and the tenant role. -/
def cleanup (w : Setup) (p : Params) (conn : ConnectionDetails) (customerUser : String) :
    M Unit := do
  if p.pCleanInstall then
    log1 "Cleaning up the '" p.pTargetDatabase "' database"
    abort (← invoke w (.DropDatabase conn p.pTargetDatabase)).err
    for user in [p.pTargetUserName, customerUser] do
      log1 "Dropping the '" user "' user"
      abort (← invoke w (.DropUser conn user)).err

/-- The tenant role name, `fmt.Sprintf("u%d", pCustomerID)`. -/
def customerUser (p : Params) : String := "u" ++ fmtD p.pCustomerID

/-- The field `Run` of `installCmd`. -/
def Run (w : Setup) (p : Params) : M Unit := do
  log "Validating parameters..."
  if !(← checkInputParameters p) then
    return
  let conn : ConnectionDetails := ⟨p.pDBUserName, p.pDBHost, p.pDBName, p.pDBSslMode⟩
  let customerUser := customerUser p
  cleanup w p conn customerUser
  for user in [p.pTargetUserName, customerUser] do
    log1 "Creating the '" user "' user"
    abort (← invoke w (.CreateUser conn user [])).err
  log "Fixing permissions"
  abort (← invoke w (.GrantRolesToUser conn customerUser [p.pTargetUserName])).err
  log "Updating the 'search_path'"
  abort (← invoke w (.SetSearchPathForUser conn customerUser [customerUser, "public"])).err
  log1 "Creating the '" p.pTargetDatabase "' database"
  abort (← invoke w (.CreateNewDatabase conn p.pTargetDatabase
    ["OWNER " ++ p.pTargetUserName, "TEMPLATE template0"])).err
  log "Creating the necessary extensions"
  let conn : ConnectionDetails := ⟨conn.Username, conn.Host, p.pTargetDatabase, conn.SslMode⟩
  abort (← invoke w (.CreateExtensionsInDatabase conn
    ["hstore", "dblink", "pg_freespacemap", "postgis", "tablefunc", "unaccent"])).err
  let r ← invoke w (.CheckIfSchemaExists conn "dbview")
  abort r.err
  let mut restoreArgs := ["-Fc"]
  if r.found then
    abort (← invoke w (.CreateSchema conn customerUser)).err
    restoreArgs := restoreArgs ++ ["--schema=" ++ customerUser]
  log "Restoring the dump file"
  let conn : ConnectionDetails := ⟨customerUser, conn.Host, conn.Database, conn.SslMode⟩
  abort (← invoke w (.RestoreDumpFile conn p.pDumpFile ⟨restoreArgs⟩)).err
  log "Done."

/-- The whole command, from the initial state. -/
def install (w : Setup) (p : Params) : Res Unit := Run w p World.init

/-! ## Vocabulary for stating properties of a run -/

/-- The connection a call is given. -/
def Call.conn : Call → ConnectionDetails
  | .DropDatabase conn _ => conn
  | .DropUser conn _ => conn
  | .CreateUser conn _ _ => conn
  | .GrantRolesToUser conn _ _ => conn
  | .SetSearchPathForUser conn _ _ => conn
  | .CreateNewDatabase conn _ _ => conn
  | .CreateExtensionsInDatabase conn _ => conn
  | .CheckIfSchemaExists conn _ => conn
  | .CreateSchema conn _ => conn
  | .RestoreDumpFile conn _ _ => conn

/-- A cleanup call: `DropDatabase` or `DropUser`. -/
def Call.isDrop : Call → Bool
  | .DropDatabase _ _ => true
  | .DropUser _ _ => true
  | .CreateUser _ _ _ => false
  | .GrantRolesToUser _ _ _ => false
  | .SetSearchPathForUser _ _ _ => false
  | .CreateNewDatabase _ _ _ => false
  | .CreateExtensionsInDatabase _ _ => false
  | .CheckIfSchemaExists _ _ => false
  | .CreateSchema _ _ => false
  | .RestoreDumpFile _ _ _ => false

/-- The schema-existence check. -/
def Call.isCheck : Call → Bool
  | .DropDatabase _ _ => false
  | .DropUser _ _ => false
  | .CreateUser _ _ _ => false
  | .GrantRolesToUser _ _ _ => false
  | .SetSearchPathForUser _ _ _ => false
  | .CreateNewDatabase _ _ _ => false
  | .CreateExtensionsInDatabase _ _ => false
  | .CheckIfSchemaExists _ _ => true
  | .CreateSchema _ _ => false
  | .RestoreDumpFile _ _ _ => false

/-- A schema creation. -/
def Call.isCreateSchema : Call → Bool
  | .DropDatabase _ _ => false
  | .DropUser _ _ => false
  | .CreateUser _ _ _ => false
  | .GrantRolesToUser _ _ _ => false
  | .SetSearchPathForUser _ _ _ => false
  | .CreateNewDatabase _ _ _ => false
  | .CreateExtensionsInDatabase _ _ => false
  | .CheckIfSchemaExists _ _ => false
  | .CreateSchema _ _ => true
  | .RestoreDumpFile _ _ _ => false

/-- The dump restore. -/
def Call.isRestore : Call → Bool
  | .DropDatabase _ _ => false
  | .DropUser _ _ => false
  | .CreateUser _ _ _ => false
  | .GrantRolesToUser _ _ _ => false
  | .SetSearchPathForUser _ _ _ => false
  | .CreateNewDatabase _ _ _ => false
  | .CreateExtensionsInDatabase _ _ => false
  | .CheckIfSchemaExists _ _ => false
  | .CreateSchema _ _ => false
  | .RestoreDumpFile _ _ _ => true

/-- The steps that come before the schema-existence check: the cleanup calls
and steps 1 to 5 of the provisioning pipeline. -/
def Call.isEarly : Call → Bool
  | .DropDatabase _ _ => true
  | .DropUser _ _ => true
  | .CreateUser _ _ _ => true
  | .GrantRolesToUser _ _ _ => true
  | .SetSearchPathForUser _ _ _ => true
  | .CreateNewDatabase _ _ _ => true
  | .CreateExtensionsInDatabase _ _ => true
  | .CheckIfSchemaExists _ _ => false
  | .CreateSchema _ _ => false
  | .RestoreDumpFile _ _ _ => false

/-- The calls made inside the target database: extensions, schema check,
schema creation and restore. -/
def Call.inTargetDatabase : Call → Bool
  | .DropDatabase _ _ => false
  | .DropUser _ _ => false
  | .CreateUser _ _ _ => false
  | .GrantRolesToUser _ _ _ => false
  | .SetSearchPathForUser _ _ _ => false
  | .CreateNewDatabase _ _ _ => false
  | .CreateExtensionsInDatabase _ _ => true
  | .CheckIfSchemaExists _ _ => true
  | .CreateSchema _ _ => true
  | .RestoreDumpFile _ _ _ => true

/-- The role a `CreateUser` call creates. -/
def Call.createdUser : Call → Option String
  | .DropDatabase _ _ => none
  | .DropUser _ _ => none
  | .CreateUser _ user _ => some user
  | .GrantRolesToUser _ _ _ => none
  | .SetSearchPathForUser _ _ _ => none
  | .CreateNewDatabase _ _ _ => none
  | .CreateExtensionsInDatabase _ _ => none
  | .CheckIfSchemaExists _ _ => none
  | .CreateSchema _ _ => none
  | .RestoreDumpFile _ _ _ => none

/-- Spec, data model: wherever a call names the tenant (as role, grantee,
search-path owner and first entry, schema, restore user or schema restriction),
the name is `t`; the role calls name the shared role `target` or `t`. -/
def UsesTenant (target t : String) : Call → Prop
  | .DropUser _ user => user = target ∨ user = t
  | .CreateUser _ user _ => user = target ∨ user = t
  | .GrantRolesToUser _ user roles => user = t ∧ roles = [target]
  | .SetSearchPathForUser _ user path => user = t ∧ path.head? = some t
  | .CreateSchema _ schema => schema = t
  | .RestoreDumpFile conn _ options =>
      conn.Username = t ∧
        (options.CustomArgs = ["-Fc"] ∨ options.CustomArgs = ["-Fc", "--schema=" ++ t])
  | .DropDatabase _ _ => True
  | .CreateNewDatabase _ _ _ => True
  | .CreateExtensionsInDatabase _ _ => True
  | .CheckIfSchemaExists _ _ => True

/-- Spec, data model: the connection as configured by the flags. -/
def adminConn (p : Params) : ConnectionDetails :=
  ⟨p.pDBUserName, p.pDBHost, p.pDBName, p.pDBSslMode⟩

/-- Spec, data model: the connection once the target database replaces the
initial one. -/
def targetConn (p : Params) : ConnectionDetails :=
  ⟨p.pDBUserName, p.pDBHost, p.pTargetDatabase, p.pDBSslMode⟩

/-- Spec, data model: the connection once the tenant role is the acting
identity. -/
def restoreConn (p : Params) : ConnectionDetails :=
  ⟨"u" ++ fmtD p.pCustomerID, p.pDBHost, p.pTargetDatabase, p.pDBSslMode⟩

/-- Spec 4.2: the cleanup stage, database first, then the two roles. -/
def cleanupCalls (p : Params) : List Call :=
  if p.pCleanInstall then
    [.DropDatabase (adminConn p) p.pTargetDatabase,
     .DropUser (adminConn p) p.pTargetUserName,
     .DropUser (adminConn p) ("u" ++ fmtD p.pCustomerID)]
  else []

/-- Spec 4.3, steps 1 to 6: roles, grant, search path, database, extensions
and the detection of the shared schema. -/
def provisionCalls (p : Params) : List Call :=
  [.CreateUser (adminConn p) p.pTargetUserName [],
   .CreateUser (adminConn p) ("u" ++ fmtD p.pCustomerID) [],
   .GrantRolesToUser (adminConn p) ("u" ++ fmtD p.pCustomerID) [p.pTargetUserName],
   .SetSearchPathForUser (adminConn p) ("u" ++ fmtD p.pCustomerID)
     ["u" ++ fmtD p.pCustomerID, "public"],
   .CreateNewDatabase (adminConn p) p.pTargetDatabase
     ["OWNER " ++ p.pTargetUserName, "TEMPLATE template0"],
   .CreateExtensionsInDatabase (targetConn p)
     ["hstore", "dblink", "pg_freespacemap", "postgis", "tablefunc", "unaccent"],
   .CheckIfSchemaExists (targetConn p) "dbview"]

/-- Spec 4.3, steps 6 and 7: what follows the detection, by its result. -/
def restoreCalls (p : Params) (found : Bool) : List Call :=
  if found then
    [.CreateSchema (targetConn p) ("u" ++ fmtD p.pCustomerID),
     .RestoreDumpFile (restoreConn p) p.pDumpFile
       ⟨["-Fc", "--schema=" ++ ("u" ++ fmtD p.pCustomerID)]⟩]
  else
    [.RestoreDumpFile (restoreConn p) p.pDumpFile ⟨["-Fc"]⟩]

/-- Spec 4.2 and 4.3: the sequence of calls of a run in which every call
succeeds and the shared schema is reported as `found`. -/
def plan (p : Params) (found : Bool) : List Call :=
  cleanupCalls p ++ provisionCalls p ++ restoreCalls p found

/-- A collaborator whose every call succeeds and that reports the shared
schema as `found`. -/
def allOk (found : Bool) : Setup := fun _ _ => ⟨found, none⟩

/-- A collaborator whose every call fails. -/
def allFail : Setup := fun _ _ => ⟨true, some "refused"⟩

/-- A collaborator whose calls succeed except the schema check, which reports
the schema as present together with an error. -/
def checkFails : Setup := fun _ c => ⟨true, if c.isCheck then some "no connection" else none⟩

/-- A collaborator whose calls succeed except the restore. -/
def restoreFails (found : Bool) : Setup :=
  fun _ c => ⟨found, if c.isRestore then some "pg_restore failed" else none⟩

/-- The flag values of a command line that sets only the customer, the dump
file and the cleanup flag. -/
def paramsFor (customer : Int) (dumpFile : String) (clean : Bool) : Params :=
  ⟨customer, defaultParams.pDBPort, defaultParams.pDBUserName, defaultParams.pDBHost,
    defaultParams.pDBName, defaultParams.pDBSslMode, dumpFile, defaultParams.pDBPassword,
    defaultParams.pTargetDatabase, defaultParams.pTargetUserName, clean⟩

/-! ## Reasoning about computations -/

/-- The state after a call and its reply. -/
def World.push (s : World) (c : Call) (r : Reply) : World := ⟨s.calls ++ [⟨c, r⟩], s.out⟩

/-- The state after a printed line. -/
def World.say (s : World) (l : String) : World := ⟨s.calls, s.out ++ [l]⟩

instance : LawfulMonad M := LawfulMonad.mk' M
  (fun x => by
    funext s; show M.bind x _ s = x s; unfold M.bind; cases x s <;> rfl)
  (fun x f => rfl)
  (fun x f g => by
    funext s; show M.bind (M.bind x f) g s = M.bind x (fun a => M.bind (f a) g) s
    unfold M.bind; cases x s <;> rfl)

/-- The shape of a straight-line command: it returns, prints a line and goes
on, or makes a call, aborts when the call returns an error and otherwise goes
on, in a way that may depend on the boolean the call returned. -/
inductive Script where
  | done : Script
  | say (line : String) (next : Script) : Script
  | call (c : Call) (next : Bool → Script) : Script

/-- The computation a script stands for. -/
def exec (w : Setup) : Script → M Unit
  | .done => pure ()
  | .say line next => println line >>= fun _ => exec w next
  | .call c next => invoke w c >>= fun r => abort r.err >>= fun _ => exec w (next r.found)

/-- The command `install` as a script, statement by statement. -/
def script (p : Params) : Script :=
  .say "Validating parameters..." <|
  if p.pCustomerID = 0 then .say "Missing the customer id!" .done
  else if p.pDumpFile = "" then .say "Missing the dump file!" .done
  else
    let conn : ConnectionDetails := ⟨p.pDBUserName, p.pDBHost, p.pDBName, p.pDBSslMode⟩
    let conn2 : ConnectionDetails := ⟨p.pDBUserName, p.pDBHost, p.pTargetDatabase, p.pDBSslMode⟩
    let conn3 : ConnectionDetails :=
      ⟨customerUser p, p.pDBHost, p.pTargetDatabase, p.pDBSslMode⟩
    let restore (args : List String) : Script :=
      .say "Restoring the dump file" <|
      .call (.RestoreDumpFile conn3 p.pDumpFile ⟨args⟩) fun _ =>
      .say "Done." .done
    let provision : Script :=
      .say ("Creating the '" ++ p.pTargetUserName ++ "' user") <|
      .call (.CreateUser conn p.pTargetUserName []) fun _ =>
      .say ("Creating the '" ++ customerUser p ++ "' user") <|
      .call (.CreateUser conn (customerUser p) []) fun _ =>
      .say "Fixing permissions" <|
      .call (.GrantRolesToUser conn (customerUser p) [p.pTargetUserName]) fun _ =>
      .say "Updating the 'search_path'" <|
      .call (.SetSearchPathForUser conn (customerUser p) [customerUser p, "public"]) fun _ =>
      .say ("Creating the '" ++ p.pTargetDatabase ++ "' database") <|
      .call (.CreateNewDatabase conn p.pTargetDatabase
        ["OWNER " ++ p.pTargetUserName, "TEMPLATE template0"]) fun _ =>
      .say "Creating the necessary extensions" <|
      .call (.CreateExtensionsInDatabase conn2
        ["hstore", "dblink", "pg_freespacemap", "postgis", "tablefunc", "unaccent"]) fun _ =>
      .call (.CheckIfSchemaExists conn2 "dbview") fun found =>
      match found with
      | true =>
        .call (.CreateSchema conn2 (customerUser p)) fun _ =>
        restore (["-Fc"] ++ ["--schema=" ++ customerUser p])
      | false => restore ["-Fc"]
    match p.pCleanInstall with
    | true =>
      .say ("Cleaning up the '" ++ p.pTargetDatabase ++ "' database") <|
      .call (.DropDatabase conn p.pTargetDatabase) fun _ =>
      .say ("Dropping the '" ++ p.pTargetUserName ++ "' user") <|
      .call (.DropUser conn p.pTargetUserName) fun _ =>
      .say ("Dropping the '" ++ customerUser p ++ "' user") <|
      .call (.DropUser conn (customerUser p)) fun _ =>
      provision
    | false => provision

/-- The state whose calls and printed lines are given latest first. -/
def World.ofRev (calls : List Event) (out : List String) : World :=
  ⟨calls.reverse, out.reverse⟩

/-- Running script `sc` from the state with calls `calls` and printed lines
`out`, both latest first, the result satisfies `C` whenever all the calls of the
run, with their replies, pass the test `g`. -/
structure After (w : Setup) (sc : Script) (calls : List Event) (out : List String)
    (g : Event → Bool) (C : Res Unit → Prop) : Prop where
  holds : (exec w sc (World.ofRev calls out)).world.calls.all g = true →
    C (exec w sc (World.ofRev calls out))

/-- The value of a decimal digit character. -/
def digitVal (c : Char) : Nat := c.toNat - 48

/-- Reading a list of decimal digits, most significant first. -/
def readDigits (acc : Nat) (cs : List Char) : Nat :=
  cs.foldl (fun a c => 10 * a + digitVal c) acc

/-! # Theorems -/

/-! ## The command as a script -/

theorem World.calls_push (s : World) (c : Call) (r : Reply) :
    (s.push c r).calls = s.calls ++ [⟨c, r⟩] := rfl

theorem World.calls_say (s : World) (l : String) : (s.say l).calls = s.calls := rfl

theorem exec_say (w : Setup) (l : String) (k : Script) (s : World) :
    exec w (.say l k) s = exec w k (s.say l) := rfl

theorem exec_call_ok (w : Setup) (c : Call) (k : Bool → Script) (s : World) (f : Bool)
    (h : w s.calls c = ⟨f, none⟩) :
    exec w (.call c k) s = exec w (k f) (s.push c ⟨f, none⟩) := by
  simp only [exec, bind, M.bind, invoke, h, abort, pure]
  rfl

theorem exec_call_err (w : Setup) (c : Call) (k : Bool → Script) (s : World) (f : Bool)
    (e : GoError) (h : w s.calls c = ⟨f, some e⟩) :
    exec w (.call c k) s = .panic e (s.push c ⟨f, some e⟩) := by
  simp only [exec, bind, M.bind, invoke, h, abort, goPanic]
  rfl

/-- A script only ever adds calls to those already made. -/
theorem exec_calls_extend (w : Setup) (sc : Script) :
    ∀ s : World, ∃ evs, (exec w sc s).world.calls = s.calls ++ evs := by
  induction sc with
  | done => intro s; exact ⟨[], by simp [exec, pure, Res.world]⟩
  | say l k ih =>
    intro s
    obtain ⟨evs, h⟩ := ih (s.say l)
    exact ⟨evs, by rw [exec_say, h, World.calls_say]⟩
  | call c k ih =>
    intro s
    rcases hr : w s.calls c with ⟨f, _ | e⟩
    · obtain ⟨evs, h⟩ := ih f (s.push c ⟨f, none⟩)
      exact ⟨⟨c, ⟨f, none⟩⟩ :: evs, by
        rw [exec_call_ok w c k s f hr, h, World.calls_push, List.append_assoc]; rfl⟩
    · exact ⟨[⟨c, ⟨f, some e⟩⟩], by rw [exec_call_err w c k s f e hr]; rfl⟩

/-- The command is the computation of its script. -/
theorem Run_eq_exec (w : Setup) (p : Params) : Run w p = exec w (script p) := by
  unfold Run cleanup checkInputParameters script
  by_cases h0 : p.pCustomerID = 0
  · simp [h0, log, exec, bind_assoc]
  by_cases h1 : p.pDumpFile = ""
  · simp [h0, h1, log, exec, bind_assoc]
  cases hc : p.pCleanInstall <;>
  simp only [h0, h1, if_false, log, log1, bind_assoc, pure_bind, List.forIn_cons,
    List.forIn_nil, Bool.not_true, Bool.false_eq_true, ite_true, exec, bind_pure] <;>
  (repeat (refine bind_congr ?_; intro r)) <;>
  (split <;> simp_all [exec])


/-! ## Rules for the runs of a script -/

theorem World.ofRev_say (calls : List Event) (out : List String) (l : String) :
    (World.ofRev calls out).say l = World.ofRev calls (l :: out) := by
  simp [World.ofRev, World.say]

theorem World.ofRev_push (calls : List Event) (out : List String) (c : Call) (r : Reply) :
    (World.ofRev calls out).push c r = World.ofRev (⟨c, r⟩ :: calls) out := by
  simp [World.ofRev, World.push]

theorem After_done {w : Setup} {calls : List Event} {out : List String} {g : Event → Bool}
    {C : Res Unit → Prop} (h : C (.ok () (World.ofRev calls out))) :
    After w .done calls out g C := ⟨fun _ => h⟩

theorem After_say {w : Setup} {l : String} {k : Script} {calls : List Event}
    {out : List String} {g : Event → Bool} {C : Res Unit → Prop}
    (h : After w k calls (l :: out) g C) : After w (.say l k) calls out g C := by
  refine ⟨?_⟩
  rw [exec_say, World.ofRev_say]
  exact h.holds

/-- A call: when the reply passes the test, the property has to hold of the
panic (reply with an error) or of the rest of the run (reply without); a reply
that fails the test needs no proof, whatever follows it. -/
theorem After_call {w : Setup} {c : Call} {k : Bool → Script} {calls : List Event}
    {out : List String} {g : Event → Bool} {C : Res Unit → Prop}
    (hok : ∀ f : Bool, g ⟨c, ⟨f, none⟩⟩ = true →
      After w (k f) (⟨c, ⟨f, none⟩⟩ :: calls) out g C)
    (herr : ∀ (f : Bool) (e : GoError), g ⟨c, ⟨f, some e⟩⟩ = true →
      C (.panic e (World.ofRev (⟨c, ⟨f, some e⟩⟩ :: calls) out))) :
    After w (.call c k) calls out g C := by
  refine ⟨fun hall => ?_⟩
  rcases hr : w (World.ofRev calls out).calls c with ⟨f, _ | e⟩
  · rw [exec_call_ok w c k _ f hr, World.ofRev_push] at hall ⊢
    obtain ⟨evs, hevs⟩ := exec_calls_extend w (k f) (World.ofRev (⟨c, ⟨f, none⟩⟩ :: calls) out)
    have hg : g ⟨c, ⟨f, none⟩⟩ = true := by
      rw [hevs] at hall
      simp only [World.ofRev, List.reverse_cons, List.all_append, List.all_cons, List.all_nil,
        Bool.and_true, Bool.and_eq_true] at hall
      exact hall.1.2
    exact (hok f hg).holds hall
  · rw [exec_call_err w c k _ f e hr, World.ofRev_push] at hall ⊢
    have hg : g ⟨c, ⟨f, some e⟩⟩ = true := by
      simp only [Res.world, World.ofRev, List.reverse_cons, List.all_append, List.all_cons,
        List.all_nil, Bool.and_true, Bool.and_eq_true] at hall
      exact hall.2
    exact herr f e hg

/-- A property of all the runs of the script is a property of the command. -/
theorem After_install {w : Setup} {p : Params} {g : Event → Bool} {C : Res Unit → Prop}
    (h : After w (script p) [] [] g C) :
    (install w p).world.calls.all g = true → C (install w p) := by
  unfold install
  rw [Run_eq_exec]
  exact h.holds

/-! ## Decimal rendering is injective -/

theorem digitVal_digitChar (k : Nat) (h : k < 10) : digitVal (Nat.digitChar k) = k := by
  interval_cases k <;> rfl

theorem digitChar_ne_minus (k : Nat) (h : k < 10) : Nat.digitChar k ≠ '-' := by
  interval_cases k <;> decide

theorem readDigits_toDigitsCore (fuel : Nat) :
    ∀ (n : Nat) (ds : List Char), n < fuel →
      readDigits 0 (Nat.toDigitsCore 10 fuel n ds) = readDigits n ds := by
  induction fuel with
  | zero => intro n ds h; omega
  | succ fuel ih =>
    intro n ds h
    have hmod : n % 10 < 10 := Nat.mod_lt _ (by decide)
    have hstep : readDigits 0 (Nat.digitChar (n % 10) :: ds) = readDigits (n % 10) ds := by
      simp [readDigits, digitVal_digitChar _ hmod]
    by_cases hq : n / 10 = 0
    · have hn : n % 10 = n := Nat.mod_eq_of_lt (by omega)
      simp only [Nat.toDigitsCore, hq, if_true]
      rw [hstep, hn]
    · simp only [Nat.toDigitsCore, hq, if_false]
      rw [ih (n / 10) _ (by omega)]
      have : 10 * (n / 10) + n % 10 = n := Nat.div_add_mod n 10
      simp [readDigits, digitVal_digitChar _ hmod, this]

theorem minus_not_mem_toDigitsCore (fuel : Nat) :
    ∀ (n : Nat) (ds : List Char), '-' ∉ ds → '-' ∉ Nat.toDigitsCore 10 fuel n ds := by
  induction fuel with
  | zero => intro n ds h; simpa [Nat.toDigitsCore] using h
  | succ fuel ih =>
    intro n ds h
    have hmod : n % 10 < 10 := Nat.mod_lt _ (by decide)
    have hcons : '-' ∉ Nat.digitChar (n % 10) :: ds := by
      simp only [List.mem_cons, not_or]
      exact ⟨fun e => digitChar_ne_minus _ hmod e.symm, h⟩
    by_cases hq : n / 10 = 0
    · simpa only [Nat.toDigitsCore, hq, if_true] using hcons
    · simpa only [Nat.toDigitsCore, hq, if_false] using ih _ _ hcons

theorem repr_data (n : Nat) : (Nat.repr n).data = Nat.toDigits 10 n := rfl

theorem readDigits_repr (n : Nat) : readDigits 0 (Nat.repr n).data = n := by
  rw [repr_data]
  exact readDigits_toDigitsCore (n + 1) n [] (Nat.lt_succ_self n)

theorem minus_not_mem_repr (n : Nat) : '-' ∉ (Nat.repr n).data := by
  rw [repr_data]
  exact minus_not_mem_toDigitsCore (n + 1) n [] (by simp)

theorem repr_injective {a b : Nat} (h : Nat.repr a = Nat.repr b) : a = b := by
  have := congrArg (fun s => readDigits 0 s.data) h
  simpa [readDigits_repr] using this

theorem fmtD_injective {a b : Int} (h : fmtD a = fmtD b) : a = b := by
  unfold fmtD at h
  by_cases ha : a < 0 <;> by_cases hb : b < 0 <;> simp only [ha, hb, if_true, if_false] at h
  · have h2 := congrArg String.data h
    simp only [String.data_append] at h2
    have h3 : (Nat.repr a.natAbs).data = (Nat.repr b.natAbs).data := by simpa using h2
    have := repr_injective (String.ext h3)
    omega
  · exfalso
    have h2 := congrArg String.data h
    simp only [String.data_append] at h2
    apply minus_not_mem_repr b.natAbs
    rw [← h2]; simp
  · exfalso
    have h2 := congrArg String.data h
    simp only [String.data_append] at h2
    apply minus_not_mem_repr a.natAbs
    rw [h2]; simp
  · have := repr_injective h
    omega

theorem append_left_cancel {s a b : String} (h : s ++ a = s ++ b) : a = b := by
  have h2 := congrArg String.data h
  simp only [String.data_append] at h2
  exact String.ext (List.append_cancel_left h2)

/-! ## General facts about the runs of the command -/

/-- Every reply recorded by a script is the reply of the collaborator. -/
theorem exec_replies (w : Setup) (sc : Script) :
    ∀ s : World, ∀ e ∈ (exec w sc s).world.calls, e ∈ s.calls ∨ ∃ h, e.reply = w h e.call := by
  induction sc with
  | done => intro s e he; exact Or.inl he
  | say l k ih =>
    intro s e he
    rw [exec_say] at he
    exact ih (s.say l) e he
  | call c k ih =>
    intro s e he
    rcases hr : w s.calls c with ⟨f, _ | err⟩
    · rw [exec_call_ok w c k s f hr] at he
      rcases ih f _ e he with h | h
      · rw [World.calls_push, List.mem_append, List.mem_singleton] at h
        rcases h with h | h
        · exact Or.inl h
        · exact Or.inr ⟨s.calls, by rw [h, hr]⟩
      · exact Or.inr h
    · rw [exec_call_err w c k s f err hr] at he
      simp only [Res.world, World.calls_push, List.mem_append, List.mem_singleton] at he
      rcases he with h | h
      · exact Or.inl h
      · exact Or.inr ⟨s.calls, by rw [h, hr]⟩

/-- The calls of a run are an initial segment of the planned sequence, for one
of the two results of the schema check. -/
theorem trace_initial_segment (w : Setup) (p : Params) :
    (install w p).trace <+: plan p false ∨ (install w p).trace <+: plan p true := by
  refine @After_install w p (fun _ => true)
    (fun r => r.trace <+: plan p false ∨ r.trace <+: plan p true) ?_ (by simp)
  unfold script
  simp only [plan, cleanupCalls, provisionCalls, restoreCalls]
  by_cases h0 : p.pCustomerID = 0
  · simp only [h0, if_true]
    exact After_say (After_say (After_done (Or.inl ⟨_, rfl⟩)))
  by_cases h1 : p.pDumpFile = ""
  · simp only [h0, h1, if_true, if_false]
    exact After_say (After_say (After_done (Or.inl ⟨_, rfl⟩)))
  simp only [h0, h1, if_false]
  cases p.pCleanInstall <;>
  repeat' (first
    | refine After_say ?_
    | refine After_call (fun f _ => ?_) (fun f e _ => ?_)
    | exact After_done (Or.inl ⟨_, rfl⟩)
    | exact After_done (Or.inr ⟨_, rfl⟩)
    | exact Or.inl ⟨_, rfl⟩
    | exact Or.inr ⟨_, rfl⟩
    | cases f)

/-- With a collaborator that always succeeds, the calls are the whole planned
sequence. -/
theorem install_allOk_trace (p : Params) (h0 : p.pCustomerID ≠ 0) (h1 : p.pDumpFile ≠ "")
    (found : Bool) : (install (allOk found) p).trace = plan p found := by
  have hyp : (install (allOk found) p).world.calls.all (fun e =>
      e.reply.err.isNone && (e.reply.found == found)) = true := by
    rw [List.all_eq_true]
    intro e he
    unfold install at he
    rw [Run_eq_exec] at he
    rcases exec_replies _ _ _ e he with h | ⟨h, hr⟩
    · simp [World.init] at h
    · simp [hr, allOk]
  refine @After_install (allOk found) p _ (fun r => r.trace = plan p found) ?_ hyp
  unfold script
  simp only [plan, cleanupCalls, provisionCalls, restoreCalls, h0, h1, if_false]
  cases p.pCleanInstall <;> cases found <;>
  repeat' (first
    | exact absurd ‹_ = true› Bool.false_ne_true
    | refine After_say ?_
    | refine After_call (fun f hg => ?_) (fun f e hg => ?_)
    | exact After_done rfl
    | cases f)

/-! ## C1, C2: validation -/

/-- C1: `checkInputParameters` returns normally, makes no call, and its result
is true exactly when the customer identifier is not zero and the dump file path
is not empty; it is false exactly when the identifier is zero or the path is
empty, so negative identifiers pass. -/
theorem checkInputParameters_iff (p : Params) (s : World) :
    ∃ b s1, checkInputParameters p s = .ok b s1 ∧ s1.calls = s.calls ∧
      (b = true ↔ (p.pCustomerID ≠ 0 ∧ p.pDumpFile ≠ "")) ∧
      (b = false ↔ (p.pCustomerID = 0 ∨ p.pDumpFile = "")) := by
  unfold checkInputParameters
  by_cases h0 : p.pCustomerID = 0
  · exact ⟨false, s.say "Missing the customer id!",
      by simp [h0, bind, M.bind, println, pure, World.say], rfl, by simp [h0], by simp [h0]⟩
  · by_cases h1 : p.pDumpFile = ""
    · exact ⟨false, s.say "Missing the dump file!",
        by simp [h0, h1, bind, M.bind, println, pure, World.say], rfl, by simp [h1],
        by simp [h1]⟩
    · exact ⟨true, s, by simp [h0, h1, pure, bind, M.bind], rfl, by simp [h0, h1],
        by simp [h0, h1]⟩

/-- C2: when validation fails, the run returns normally and has made no call
to the collaborator, whatever the collaborator and the other parameters are
(the cleanup flag included). -/
theorem invalid_input_no_calls (w : Setup) (p : Params)
    (h : p.pCustomerID = 0 ∨ p.pDumpFile = "") :
    (install w p).returned = true ∧ (install w p).world.calls = [] := by
  unfold install Run checkInputParameters
  by_cases h0 : p.pCustomerID = 0
  · simp [h0, log, bind, M.bind, println, pure, Res.returned, Res.world, World.init]
  · have h1 : p.pDumpFile = "" := h.resolve_left h0
    simp [h0, h1, log, bind, M.bind, println, pure, Res.returned, Res.world, World.init]

theorem invalid_input_no_calls_witness :
    ((paramsFor 0 "backup.dump" true).pCustomerID = 0 ∨
        (paramsFor 0 "backup.dump" true).pDumpFile = "") ∧
      (install allFail (paramsFor 0 "backup.dump" true)).returned = true ∧
      (install allFail (paramsFor 0 "backup.dump" true)).world.calls = [] :=
  ⟨Or.inl rfl, invalid_input_no_calls allFail (paramsFor 0 "backup.dump" true) (Or.inl rfl)⟩

/-! ## C3: the tenant role name -/

/-- Every call of the planned sequence names the tenant by the one name. -/
theorem plan_uses_tenant (p : Params) (found : Bool) :
    ∀ c ∈ plan p found, UsesTenant p.pTargetUserName ("u" ++ fmtD p.pCustomerID) c := by
  cases found <;> cases hc : p.pCleanInstall <;>
    simp [plan, cleanupCalls, provisionCalls, restoreCalls, hc, UsesTenant, restoreConn]

theorem plan_created_users (p : Params) (found : Bool) :
    (plan p found).filterMap Call.createdUser =
      [p.pTargetUserName, "u" ++ fmtD p.pCustomerID] := by
  cases found <;> cases hc : p.pCleanInstall <;>
    simp [plan, cleanupCalls, provisionCalls, restoreCalls, hc, Call.createdUser]

/-- C3: the tenant role name is the letter u followed by the decimal rendering
of the customer identifier, and every call of every run that names the tenant
uses that one value: the role of the second `CreateUser` (the first creates the
shared role), the grantee, the role and first search-path entry, the schema
created, the user of the restore and its schema restriction. -/
theorem tenant_role_name (w : Setup) (p : Params) :
    customerUser p = "u" ++ fmtD p.pCustomerID ∧
    (∀ c ∈ (install w p).trace, UsesTenant p.pTargetUserName (customerUser p) c) ∧
    ((install w p).trace.filterMap Call.createdUser <+:
      [p.pTargetUserName, customerUser p]) := by
  refine ⟨rfl, ?_, ?_⟩
  · intro c hc
    rcases trace_initial_segment w p with h | h
    · exact plan_uses_tenant p false c (h.subset hc)
    · exact plan_uses_tenant p true c (h.subset hc)
  · rcases trace_initial_segment w p with h | h
    · have := h.filterMap Call.createdUser
      rwa [plan_created_users] at this
    · have := h.filterMap Call.createdUser
      rwa [plan_created_users] at this

theorem tenant_role_name_witness :
    customerUser (paramsFor 42 "backup.dump" false) = "u42" ∧
    (install (allOk true) (paramsFor 42 "backup.dump" false)).trace.filterMap Call.createdUser
      = ["dbview", "u42"] ∧
    UsesTenant "dbview" "u42"
      (.CreateSchema (targetConn (paramsFor 42 "backup.dump" false)) "u42") :=
  ⟨by decide, by decide,
    (tenant_role_name (allOk true) (paramsFor 42 "backup.dump" false)).2.1 _ (by decide)⟩

/-! ## C4, C5: the branch on the shared schema -/

/-- C4: for valid input, when every step before the schema check succeeds and
the check of schema dbview returns false without error, the run calls
`RestoreDumpFile` once, with `CustomArgs` the one-element list `-Fc`, and never
calls `CreateSchema`. -/
theorem fresh_install_restore (w : Setup) (p : Params)
    (h0 : p.pCustomerID ≠ 0) (h1 : p.pDumpFile ≠ "")
    (hearly : ∀ e ∈ (install w p).world.calls, e.call.isEarly = true → e.reply.err = none)
    (hcheck : ∀ e ∈ (install w p).world.calls, e.call.isCheck = true →
      e.reply.err = none ∧ e.reply.found = false) :
    (install w p).trace.filter Call.isCheck =
      [.CheckIfSchemaExists (targetConn p) "dbview"] ∧
    (install w p).trace.filter Call.isRestore =
      [.RestoreDumpFile (restoreConn p) p.pDumpFile ⟨["-Fc"]⟩] ∧
    (install w p).trace.filter Call.isCreateSchema = [] := by
  have hyp : (install w p).world.calls.all (fun e =>
      (!e.call.isEarly || e.reply.err.isNone) &&
      (!e.call.isCheck || (e.reply.err.isNone && !e.reply.found))) = true := by
    rw [List.all_eq_true]
    intro e he
    have a := hearly e he
    have b := hcheck e he
    cases h2 : e.call.isEarly <;> cases h3 : e.call.isCheck <;> simp_all
  refine @After_install w p _ (fun r =>
    r.trace.filter Call.isCheck = [.CheckIfSchemaExists (targetConn p) "dbview"] ∧
    r.trace.filter Call.isRestore = [.RestoreDumpFile (restoreConn p) p.pDumpFile ⟨["-Fc"]⟩] ∧
    r.trace.filter Call.isCreateSchema = []) ?_ hyp
  unfold script
  simp only [h0, h1, if_false]
  cases p.pCleanInstall <;>
  repeat' (first
    | exact absurd ‹_ = true› Bool.false_ne_true
    | refine After_say ?_
    | refine After_call (fun f hg => ?_) (fun f e hg => ?_)
    | exact After_done ⟨rfl, rfl, rfl⟩
    | exact ⟨rfl, rfl, rfl⟩
    | cases f)

theorem fresh_install_restore_witness :
    (install (restoreFails false) (paramsFor 100 "backup.dump" true)).trace.filter
        Call.isCheck =
      [.CheckIfSchemaExists ⟨"postgres", "127.0.0.1", "umovme_dbview_db", "disable"⟩ "dbview"] ∧
    (install (restoreFails false) (paramsFor 100 "backup.dump" true)).trace.filter
        Call.isRestore =
      [.RestoreDumpFile ⟨"u100", "127.0.0.1", "umovme_dbview_db", "disable"⟩ "backup.dump"
        ⟨["-Fc"]⟩] ∧
    (install (restoreFails false) (paramsFor 100 "backup.dump" true)).trace.filter
      Call.isCreateSchema = [] :=
  fresh_install_restore (restoreFails false) (paramsFor 100 "backup.dump" true)
    (by decide) (by decide) (by decide) (by decide)

/-- C5: for valid input with customer identifier id, when every step before
the schema check succeeds and the check of schema dbview returns true without
error, the calls from the check onwards are the check, then `CreateSchema` of
the schema u followed by id, then at most the restore: `CreateSchema` is called
exactly once, after the check and before the restore, and when it succeeds the
restore is called with `CustomArgs` equal to `-Fc` followed by the restriction
to that schema, in that order. -/
theorem subsequent_install_restore (w : Setup) (p : Params)
    (h0 : p.pCustomerID ≠ 0) (h1 : p.pDumpFile ≠ "")
    (hearly : ∀ e ∈ (install w p).world.calls, e.call.isEarly = true → e.reply.err = none)
    (hcheck : ∀ e ∈ (install w p).world.calls, e.call.isCheck = true →
      e.reply.err = none ∧ e.reply.found = true) :
    (install w p).trace.filter Call.isCreateSchema =
      [.CreateSchema (targetConn p) ("u" ++ fmtD p.pCustomerID)] ∧
    ((install w p).trace.filter (fun c => !c.isEarly) =
        [.CheckIfSchemaExists (targetConn p) "dbview",
         .CreateSchema (targetConn p) ("u" ++ fmtD p.pCustomerID)] ∨
      (install w p).trace.filter (fun c => !c.isEarly) =
        [.CheckIfSchemaExists (targetConn p) "dbview",
         .CreateSchema (targetConn p) ("u" ++ fmtD p.pCustomerID),
         .RestoreDumpFile (restoreConn p) p.pDumpFile
           ⟨["-Fc", "--schema=" ++ ("u" ++ fmtD p.pCustomerID)]⟩]) ∧
    ((∀ e ∈ (install w p).world.calls, e.call.isCreateSchema = true → e.reply.err = none) →
      (install w p).trace.filter (fun c => !c.isEarly) =
        [.CheckIfSchemaExists (targetConn p) "dbview",
         .CreateSchema (targetConn p) ("u" ++ fmtD p.pCustomerID),
         .RestoreDumpFile (restoreConn p) p.pDumpFile
           ⟨["-Fc", "--schema=" ++ ("u" ++ fmtD p.pCustomerID)]⟩]) := by
  have hyp : (install w p).world.calls.all (fun e =>
      (!e.call.isEarly || e.reply.err.isNone) &&
      (!e.call.isCheck || (e.reply.err.isNone && e.reply.found))) = true := by
    rw [List.all_eq_true]
    intro e he
    have a := hearly e he
    have b := hcheck e he
    cases h2 : e.call.isEarly <;> cases h3 : e.call.isCheck <;> simp_all
  have key := @After_install w p _ (fun r =>
    r.trace.filter Call.isCreateSchema =
      [.CreateSchema (targetConn p) ("u" ++ fmtD p.pCustomerID)] ∧
    (r.trace.filter (fun c => !c.isEarly) =
        [.CheckIfSchemaExists (targetConn p) "dbview",
         .CreateSchema (targetConn p) ("u" ++ fmtD p.pCustomerID)] ∨
      r.trace.filter (fun c => !c.isEarly) =
        [.CheckIfSchemaExists (targetConn p) "dbview",
         .CreateSchema (targetConn p) ("u" ++ fmtD p.pCustomerID),
         .RestoreDumpFile (restoreConn p) p.pDumpFile
           ⟨["-Fc", "--schema=" ++ ("u" ++ fmtD p.pCustomerID)]⟩]) ∧
    (r.world.calls.all (fun e => !e.call.isCreateSchema || e.reply.err.isNone) = true →
      r.trace.filter (fun c => !c.isEarly) =
        [.CheckIfSchemaExists (targetConn p) "dbview",
         .CreateSchema (targetConn p) ("u" ++ fmtD p.pCustomerID),
         .RestoreDumpFile (restoreConn p) p.pDumpFile
           ⟨["-Fc", "--schema=" ++ ("u" ++ fmtD p.pCustomerID)]⟩])) ?_ hyp
  · refine ⟨key.1, key.2.1, fun hcs => key.2.2 ?_⟩
    rw [List.all_eq_true]
    intro e he
    have a := hcs e he
    cases h2 : e.call.isCreateSchema <;> simp_all
  unfold script
  simp only [h0, h1, if_false]
  cases p.pCleanInstall <;>
  repeat' (first
    | exact absurd ‹_ = true› Bool.false_ne_true
    | refine After_say ?_
    | refine After_call (fun f hg => ?_) (fun f e hg => ?_)
    | exact After_done ⟨rfl, Or.inr rfl, fun _ => rfl⟩
    | exact ⟨rfl, Or.inr rfl, fun _ => rfl⟩
    | exact ⟨rfl, Or.inl rfl, fun h => absurd h Bool.false_ne_true⟩
    | cases f)

theorem subsequent_install_restore_witness :
    (install (allOk true) (paramsFor 100 "backup.dump" false)).trace.filter
        (fun c => !c.isEarly) =
      [.CheckIfSchemaExists ⟨"postgres", "127.0.0.1", "umovme_dbview_db", "disable"⟩ "dbview",
       .CreateSchema ⟨"postgres", "127.0.0.1", "umovme_dbview_db", "disable"⟩ "u100",
       .RestoreDumpFile ⟨"u100", "127.0.0.1", "umovme_dbview_db", "disable"⟩ "backup.dump"
         ⟨["-Fc", "--schema=u100"]⟩] :=
  (subsequent_install_restore (allOk true) (paramsFor 100 "backup.dump" false)
    (by decide) (by decide) (by decide) (by decide)).2.2 (by decide)

/-! ## C6: cleanup -/

/-- C6: for valid input with the force-cleanup flag set, when the drop calls
succeed the run starts with `DropDatabase` of the target database, `DropUser`
of the target role and `DropUser` of the tenant role, in that order, and no
other call of the run is a drop, so the three precede every create, grant and
restore; with the flag unset no run makes a `DropDatabase` or `DropUser` call,
whatever the input and the collaborator. -/
theorem cleanup_ordering (w : Setup) (p : Params) :
    (p.pCustomerID ≠ 0 → p.pDumpFile ≠ "" → p.pCleanInstall = true →
      (∀ e ∈ (install w p).world.calls, e.call.isDrop = true → e.reply.err = none) →
      ∃ rest, (install w p).trace =
          [.DropDatabase (adminConn p) p.pTargetDatabase,
           .DropUser (adminConn p) p.pTargetUserName,
           .DropUser (adminConn p) ("u" ++ fmtD p.pCustomerID)] ++ rest ∧
        ∀ c ∈ rest, c.isDrop = false) ∧
    (p.pCleanInstall = false → ∀ c ∈ (install w p).trace, c.isDrop = false) := by
  constructor
  · intro h0 h1 hclean hdrops
    have hyp : (install w p).world.calls.all (fun e =>
        !e.call.isDrop || e.reply.err.isNone) = true := by
      rw [List.all_eq_true]
      intro e he
      have a := hdrops e he
      cases h2 : e.call.isDrop <;> simp_all
    have key := @After_install w p _ (fun r =>
      r.trace.take 3 =
        [.DropDatabase (adminConn p) p.pTargetDatabase,
         .DropUser (adminConn p) p.pTargetUserName,
         .DropUser (adminConn p) ("u" ++ fmtD p.pCustomerID)] ∧
      (r.trace.drop 3).all (fun c => !c.isDrop) = true) ?_ hyp
    · refine ⟨(install w p).trace.drop 3, ?_, ?_⟩
      · rw [← key.1, List.take_append_drop]
      · intro c hc
        have := List.all_eq_true.1 key.2 c hc
        simpa using this
    unfold script
    simp only [h0, h1, hclean, if_false]
    repeat' (first
      | exact absurd ‹_ = true› Bool.false_ne_true
      | refine After_say ?_
      | refine After_call (fun f hg => ?_) (fun f e hg => ?_)
      | exact After_done ⟨rfl, rfl⟩
      | exact ⟨rfl, rfl⟩
      | cases f)
  · intro hclean c hc
    rcases trace_initial_segment w p with h | h
    · have hmem := h.subset hc
      simp only [plan, cleanupCalls, provisionCalls, restoreCalls, hclean] at hmem
      simp at hmem
      rcases hmem with h | h | h | h | h | h | h | h <;> rw [h] <;> rfl
    · have hmem := h.subset hc
      simp only [plan, cleanupCalls, provisionCalls, restoreCalls, hclean] at hmem
      simp at hmem
      rcases hmem with h | h | h | h | h | h | h | h | h <;> rw [h] <;> rfl

theorem cleanup_ordering_witness :
    (∃ rest, (install (restoreFails true) (paramsFor 100 "backup.dump" true)).trace =
        [.DropDatabase ⟨"postgres", "127.0.0.1", "postgres", "disable"⟩ "umovme_dbview_db",
         .DropUser ⟨"postgres", "127.0.0.1", "postgres", "disable"⟩ "dbview",
         .DropUser ⟨"postgres", "127.0.0.1", "postgres", "disable"⟩ "u100"] ++ rest ∧
        ∀ c ∈ rest, c.isDrop = false) ∧
    (∀ c ∈ (install allFail (paramsFor 100 "backup.dump" false)).trace, c.isDrop = false) :=
  ⟨(cleanup_ordering (restoreFails true) (paramsFor 100 "backup.dump" true)).1
      (by decide) (by decide) rfl (by decide),
    (cleanup_ordering allFail (paramsFor 100 "backup.dump" false)).2 rfl⟩

/-! ## C7: fail-fast -/

/-- The facts about a run that can be read off its record: every call but the
last returned no error, the run returns normally exactly when all its calls
returned no error and exactly when it printed the last line, it panics with
the error of its last call, and a schema check that returned an error is
followed by no schema creation and no restore. -/
theorem run_record (w : Setup) (p : Params) (h0 : p.pCustomerID ≠ 0) (h1 : p.pDumpFile ≠ "") :
    (install w p).world.calls.dropLast.all (fun e => e.reply.err.isNone) = true ∧
    (install w p).returned = (install w p).world.calls.all (fun e => e.reply.err.isNone) ∧
    (install w p).world.out.contains "Done." = (install w p).returned ∧
    (install w p).panicked = (install w p).world.calls.getLast?.bind (fun e => e.reply.err) ∧
    ((install w p).world.calls.all (fun e => !(e.call.isCheck && e.reply.err.isSome)) ||
      (install w p).trace.all (fun c => !c.isCreateSchema && !c.isRestore)) = true := by
  refine @After_install w p (fun _ => true) (fun r =>
    r.world.calls.dropLast.all (fun e => e.reply.err.isNone) = true ∧
    r.returned = r.world.calls.all (fun e => e.reply.err.isNone) ∧
    r.world.out.contains "Done." = r.returned ∧
    r.panicked = r.world.calls.getLast?.bind (fun e => e.reply.err) ∧
    (r.world.calls.all (fun e => !(e.call.isCheck && e.reply.err.isSome)) ||
      r.trace.all (fun c => !c.isCreateSchema && !c.isRestore)) = true) ?_ (by simp)
  unfold script
  simp only [h0, h1, if_false]
  cases p.pCleanInstall <;>
  repeat' (first
    | refine After_say ?_
    | refine After_call (fun f _ => ?_) (fun f e _ => ?_)
    | exact After_done ⟨rfl, rfl, rfl, rfl, rfl⟩
    | exact ⟨rfl, rfl, rfl, rfl, rfl⟩
    | cases f)

/-- C7: for valid input and every collaborator, a call that returns an error is
the last call of the run and the run aborts, panicking with that error; the
calls made are an initial segment of the calls of a run in which every call
succeeds; the run prints its last line, Done, exactly when it returns normally,
which it does exactly when every call returned no error; and when the schema
check returns an error, no `CreateSchema` and no `RestoreDumpFile` call is
made, whatever boolean came with the error. -/
theorem fail_fast (w : Setup) (p : Params) (h0 : p.pCustomerID ≠ 0) (h1 : p.pDumpFile ≠ "") :
    (∀ e ∈ (install w p).world.calls, ∀ x, e.reply.err = some x →
      (install w p).world.calls.getLast? = some e ∧ (install w p).returned = false ∧
      (install w p).panicked = some x) ∧
    (∃ found, (install w p).trace <+: (install (allOk found) p).trace) ∧
    ("Done." ∈ (install w p).world.out ↔ (install w p).returned = true) ∧
    ((install w p).returned = true ↔ ∀ e ∈ (install w p).world.calls, e.reply.err = none) ∧
    (∀ e ∈ (install w p).world.calls, e.call.isCheck = true → e.reply.err ≠ none →
      ∀ c ∈ (install w p).trace, c.isCreateSchema = false ∧ c.isRestore = false) := by
  obtain ⟨hinit, hret, hdone, hpanic, hchk⟩ := run_record w p h0 h1
  have hall : (install w p).returned = true ↔
      ∀ e ∈ (install w p).world.calls, e.reply.err = none := by
    rw [hret, List.all_eq_true]
    exact ⟨fun h e he => Option.isNone_iff_eq_none.1 (h e he),
      fun h e he => Option.isNone_iff_eq_none.2 (h e he)⟩
  refine ⟨?_, ?_, ?_, hall, ?_⟩
  · intro e he x hx
    have hlast : (install w p).world.calls.getLast? = some e := by
      cases hl : (install w p).world.calls.getLast? with
      | none =>
        rw [List.getLast?_eq_none_iff] at hl
        rw [hl] at he
        exact absurd he (List.not_mem_nil e)
      | some a =>
        have happ := List.dropLast_append_getLast? a hl
        rw [← happ, List.mem_append, List.mem_singleton] at he
        rcases he with he | he
        · have := List.all_eq_true.1 hinit e he
          rw [hx] at this
          exact absurd this (by simp)
        · rw [he]
    refine ⟨hlast, ?_, ?_⟩
    · cases hr : (install w p).returned with
      | false => rfl
      | true =>
        have := hall.1 hr e he
        rw [hx] at this
        exact absurd this (by simp)
    · rw [hpanic, hlast]
      exact hx
  · rcases trace_initial_segment w p with h | h
    · exact ⟨false, by rw [install_allOk_trace p h0 h1]; exact h⟩
    · exact ⟨true, by rw [install_allOk_trace p h0 h1]; exact h⟩
  · rw [← hdone]
    simp
  · intro e he hcheck herr c hc
    rw [Bool.or_eq_true] at hchk
    rcases hchk with hA | hB
    · have := List.all_eq_true.1 hA e he
      cases hx : e.reply.err with
      | none => exact absurd hx herr
      | some x => simp [hcheck, hx] at this
    · have := List.all_eq_true.1 hB c hc
      simpa using this

theorem fail_fast_witness :
    (install checkFails (paramsFor 100 "backup.dump" true)).returned = false ∧
    (install checkFails (paramsFor 100 "backup.dump" true)).panicked = some "no connection" ∧
    (install checkFails (paramsFor 100 "backup.dump" true)).trace.length = 10 ∧
    (install checkFails (paramsFor 100 "backup.dump" true)).world.calls.getLast? =
      some ⟨.CheckIfSchemaExists ⟨"postgres", "127.0.0.1", "umovme_dbview_db", "disable"⟩
        "dbview", ⟨true, some "no connection"⟩⟩ ∧
    (∀ c ∈ (install checkFails (paramsFor 100 "backup.dump" true)).trace,
      c.isCreateSchema = false ∧ c.isRestore = false) :=
  have h := fail_fast checkFails (paramsFor 100 "backup.dump" true) (by decide) (by decide)
  have hmem : (⟨.CheckIfSchemaExists ⟨"postgres", "127.0.0.1", "umovme_dbview_db", "disable"⟩
      "dbview", ⟨true, some "no connection"⟩⟩ : Event) ∈
      (install checkFails (paramsFor 100 "backup.dump" true)).world.calls := by decide
  ⟨(h.1 _ hmem _ rfl).2.1, (h.1 _ hmem _ rfl).2.2, by decide, (h.1 _ hmem _ rfl).1,
    h.2.2.2.2 _ hmem rfl (by decide)⟩

/-! ## C8: the end-to-end sequence -/

/-- C8: for valid input with cleanup off, when every call succeeds and the
schema check returns false, the run returns normally and its calls, with their
arguments and connections, are exactly these eight, in this order: `CreateUser`
of the target role and of the tenant role without options, `GrantRolesToUser`
of the target role to the tenant, `SetSearchPathForUser` of the tenant to the
tenant schema and public, `CreateNewDatabase` of the target database owned by
the target role from template0, `CreateExtensionsInDatabase` of the six
extensions, `CheckIfSchemaExists` of dbview and `RestoreDumpFile` of the dump
file with `CustomArgs` `-Fc`. -/
theorem end_to_end_sequence (w : Setup) (p : Params)
    (h0 : p.pCustomerID ≠ 0) (h1 : p.pDumpFile ≠ "") (hclean : p.pCleanInstall = false)
    (hok : ∀ e ∈ (install w p).world.calls, e.reply.err = none)
    (hcheck : ∀ e ∈ (install w p).world.calls, e.call.isCheck = true →
      e.reply.found = false) :
    (install w p).trace =
      [.CreateUser (adminConn p) p.pTargetUserName [],
       .CreateUser (adminConn p) ("u" ++ fmtD p.pCustomerID) [],
       .GrantRolesToUser (adminConn p) ("u" ++ fmtD p.pCustomerID) [p.pTargetUserName],
       .SetSearchPathForUser (adminConn p) ("u" ++ fmtD p.pCustomerID)
         ["u" ++ fmtD p.pCustomerID, "public"],
       .CreateNewDatabase (adminConn p) p.pTargetDatabase
         ["OWNER " ++ p.pTargetUserName, "TEMPLATE template0"],
       .CreateExtensionsInDatabase (targetConn p)
         ["hstore", "dblink", "pg_freespacemap", "postgis", "tablefunc", "unaccent"],
       .CheckIfSchemaExists (targetConn p) "dbview",
       .RestoreDumpFile (restoreConn p) p.pDumpFile ⟨["-Fc"]⟩] ∧
    (install w p).trace.length = 8 ∧
    (install w p).returned = true := by
  have hyp : (install w p).world.calls.all (fun e =>
      e.reply.err.isNone && (!e.call.isCheck || !e.reply.found)) = true := by
    rw [List.all_eq_true]
    intro e he
    have a := hok e he
    have b := hcheck e he
    cases h3 : e.call.isCheck <;> simp_all
  refine @After_install w p _ (fun r =>
    r.trace =
      [.CreateUser (adminConn p) p.pTargetUserName [],
       .CreateUser (adminConn p) ("u" ++ fmtD p.pCustomerID) [],
       .GrantRolesToUser (adminConn p) ("u" ++ fmtD p.pCustomerID) [p.pTargetUserName],
       .SetSearchPathForUser (adminConn p) ("u" ++ fmtD p.pCustomerID)
         ["u" ++ fmtD p.pCustomerID, "public"],
       .CreateNewDatabase (adminConn p) p.pTargetDatabase
         ["OWNER " ++ p.pTargetUserName, "TEMPLATE template0"],
       .CreateExtensionsInDatabase (targetConn p)
         ["hstore", "dblink", "pg_freespacemap", "postgis", "tablefunc", "unaccent"],
       .CheckIfSchemaExists (targetConn p) "dbview",
       .RestoreDumpFile (restoreConn p) p.pDumpFile ⟨["-Fc"]⟩] ∧
    r.trace.length = 8 ∧ r.returned = true) ?_ hyp
  unfold script
  simp only [h0, h1, hclean, if_false]
  repeat' (first
    | exact absurd ‹_ = true› Bool.false_ne_true
    | refine After_say ?_
    | refine After_call (fun f hg => ?_) (fun f e hg => ?_)
    | exact After_done ⟨rfl, rfl, rfl⟩
    | cases f)

theorem end_to_end_sequence_witness :
    (install (allOk false) (paramsFor 100 "backup.dump" false)).trace =
      [.CreateUser ⟨"postgres", "127.0.0.1", "postgres", "disable"⟩ "dbview" [],
       .CreateUser ⟨"postgres", "127.0.0.1", "postgres", "disable"⟩ "u100" [],
       .GrantRolesToUser ⟨"postgres", "127.0.0.1", "postgres", "disable"⟩ "u100" ["dbview"],
       .SetSearchPathForUser ⟨"postgres", "127.0.0.1", "postgres", "disable"⟩ "u100"
         ["u100", "public"],
       .CreateNewDatabase ⟨"postgres", "127.0.0.1", "postgres", "disable"⟩ "umovme_dbview_db"
         ["OWNER dbview", "TEMPLATE template0"],
       .CreateExtensionsInDatabase ⟨"postgres", "127.0.0.1", "umovme_dbview_db", "disable"⟩
         ["hstore", "dblink", "pg_freespacemap", "postgis", "tablefunc", "unaccent"],
       .CheckIfSchemaExists ⟨"postgres", "127.0.0.1", "umovme_dbview_db", "disable"⟩ "dbview",
       .RestoreDumpFile ⟨"u100", "127.0.0.1", "umovme_dbview_db", "disable"⟩ "backup.dump"
         ⟨["-Fc"]⟩] :=
  (end_to_end_sequence (allOk false) (paramsFor 100 "backup.dump" false)
    (by decide) (by decide) rfl (by decide) (by decide)).1

/-! ## C9: connection details -/

theorem plan_connections (p : Params) (found : Bool) :
    ∀ c ∈ plan p found,
      c.conn.Host = p.pDBHost ∧ c.conn.SslMode = p.pDBSslMode ∧
      c.conn.Database = (if c.inTargetDatabase then p.pTargetDatabase else p.pDBName) ∧
      c.conn.Username = (if c.isRestore then "u" ++ fmtD p.pCustomerID else p.pDBUserName) := by
  cases found <;> cases hc : p.pCleanInstall <;>
    simp [plan, cleanupCalls, provisionCalls, restoreCalls, hc, Call.conn, Call.isRestore,
      Call.inTargetDatabase, adminConn, targetConn, restoreConn]

/-- C9: every call of every run is given the configured host and SSL mode; the
database of its connection is the target database for the calls made inside it
(`CreateExtensionsInDatabase`, `CheckIfSchemaExists`, `CreateSchema`,
`RestoreDumpFile`) and the initially configured database for every other call
(the drops, the role calls and `CreateNewDatabase`); its user is the tenant
role for `RestoreDumpFile` and the configured administrative user for every
other call. -/
theorem connection_details (w : Setup) (p : Params) (c : Call)
    (hc : c ∈ (install w p).trace) :
    c.conn.Host = p.pDBHost ∧ c.conn.SslMode = p.pDBSslMode ∧
    c.conn.Database = (if c.inTargetDatabase then p.pTargetDatabase else p.pDBName) ∧
    c.conn.Username = (if c.isRestore then customerUser p else p.pDBUserName) := by
  rcases trace_initial_segment w p with h | h
  · exact plan_connections p false c (h.subset hc)
  · exact plan_connections p true c (h.subset hc)

theorem connection_details_witness :
    (.RestoreDumpFile ⟨"u7", "db.example", "tenants", "require"⟩ "d.dump"
        ⟨["-Fc", "--schema=u7"]⟩ : Call) ∈
      (install (allOk true)
        ⟨7, 5432, "admin", "db.example", "postgres", "require", "d.dump", "", "tenants",
          "shared", true⟩).trace ∧
    (.RestoreDumpFile ⟨"u7", "db.example", "tenants", "require"⟩ "d.dump"
        ⟨["-Fc", "--schema=u7"]⟩ : Call).conn.Host = "db.example" ∧
    (.RestoreDumpFile ⟨"u7", "db.example", "tenants", "require"⟩ "d.dump"
        ⟨["-Fc", "--schema=u7"]⟩ : Call).conn.SslMode = "require" ∧
    (.RestoreDumpFile ⟨"u7", "db.example", "tenants", "require"⟩ "d.dump"
        ⟨["-Fc", "--schema=u7"]⟩ : Call).conn.Database = "tenants" ∧
    (.RestoreDumpFile ⟨"u7", "db.example", "tenants", "require"⟩ "d.dump"
        ⟨["-Fc", "--schema=u7"]⟩ : Call).conn.Username = "u7" :=
  ⟨by decide,
    connection_details (allOk true)
      ⟨7, 5432, "admin", "db.example", "postgres", "require", "d.dump", "", "tenants",
        "shared", true⟩
      (.RestoreDumpFile ⟨"u7", "db.example", "tenants", "require"⟩ "d.dump"
        ⟨["-Fc", "--schema=u7"]⟩) (by decide)⟩

/-! ## C10: tenant names are injective -/

/-- C10: two customer identifiers with the same tenant role name are equal, and
so are two with the same schema restriction argument: different customers never
share a role name, a schema name or a restore restriction. -/
theorem tenant_name_injective (p q : Params) (h : p.pCustomerID ≠ q.pCustomerID) :
    customerUser p ≠ customerUser q ∧
    "--schema=" ++ customerUser p ≠ "--schema=" ++ customerUser q := by
  have key : customerUser p ≠ customerUser q := fun e =>
    h (fmtD_injective (append_left_cancel e))
  exact ⟨key, fun e => key (append_left_cancel e)⟩

theorem tenant_name_injective_witness :
    customerUser (paramsFor 7 "a.dump" false) ≠ customerUser (paramsFor (-7) "a.dump" false) ∧
    "--schema=" ++ customerUser (paramsFor 7 "a.dump" false) ≠
      "--schema=" ++ customerUser (paramsFor (-7) "a.dump" false) :=
  tenant_name_injective (paramsFor 7 "a.dump" false) (paramsFor (-7) "a.dump" false)
    (by decide)

end Dbview
